import Mathlib

/-!
Shallow embedding of the NEXUS PROTOCOL repository core: the state
aggregator (`backend/state.py` with `backend/models.py`), the real-time
broadcaster (`backend/websocket_manager.py`), and the scenario simulation
engine (`chaos_engine/main.py`), together with theorems settling the
specification claims about them.
-/

namespace Nexus

/-- Service health status, from `models.py` `ServiceStatus` (the chaos
engine uses the same three status strings). -/
inductive SStatus
  | healthy
  | warning
  | critical
deriving DecidableEq

/-- A telemetry event, from `models.py` `TelemetryEvent` (same shape as the
chaos engine's dataclass).  Machine reals of the source are embedded as
rationals. -/
structure TelemetryEvent where
  timestamp : String
  service_id : String
  status : SStatus
  latency_ms : Int
  error_rate : ℚ
  traffic_volume : Int
  message : String
  metadata : List (String × String)
deriving DecidableEq

/-- Current state of a single service, from `models.py` `ServiceState`. -/
structure ServiceState where
  service_id : String
  status : SStatus
  latency_ms : Int
  error_rate : ℚ
  traffic_volume : Int
  last_updated : String
  position : ℚ × ℚ × ℚ
deriving DecidableEq

/-- Constant `SERVICE_POSITIONS` from `state.py`: fixed 3D placement per service. -/
def SERVICE_POSITIONS : List (String × (ℚ × ℚ × ℚ)) :=
  [("gateway", (0, 0, 5)),
   ("auth", (476/100, 0, 155/100)),
   ("payment", (294/100, 0, -405/100)),
   ("ai-brain", (-294/100, 0, -405/100)),
   ("database", (-476/100, 0, 155/100))]

/-- Python `dict` lookup on an insertion-ordered association list. -/
def lookupKey {α : Type} (l : List (String × α)) (k : String) : Option α :=
  (l.find? (fun p => p.1 == k)).map (·.2)

/-- Python `key in dict` membership test. -/
def containsKey {α : Type} (l : List (String × α)) (k : String) : Bool :=
  (l.find? (fun p => p.1 == k)).isSome

/-- Replace the value stored at key `k` in place (used when `k` is known to
be present, matching `d[k] = v` on an existing key: insertion order kept). -/
def replaceKey {α : Type} (l : List (String × α)) (k : String) (v : α) :
    List (String × α) :=
  l.map (fun p => if p.1 == k then (k, v) else p)

/-- Python `d[k] = v`: replace in place if present, append otherwise. -/
def setKey {α : Type} (l : List (String × α)) (k : String) (v : α) :
    List (String × α) :=
  if containsKey l k then replaceKey l k v else l ++ [(k, v)]

/-- The mutable fields of `state.py` `StateManager` (the asyncio lock only
serializes callers and carries no state; timestamps are threaded in as
explicit parameters). -/
structure StateM where
  services : List (String × ServiceState)
  recent_events : List TelemetryEvent
  max_events : Nat
  active_incidents : Int
deriving DecidableEq

/-- Method `StateManager._initialize_services`: every known service starts healthy
with the canonical baseline metrics. -/
def initServices (now : String) : List (String × ServiceState) :=
  SERVICE_POSITIONS.map (fun p =>
    (p.1, { service_id := p.1, status := .healthy, latency_ms := 500,
            error_rate := 2/100, traffic_volume := 75,
            last_updated := now, position := p.2 }))

/-- Constructor `StateManager.__init__` with `now` the process start timestamp. -/
def initStateM (now : String) : StateM :=
  { services := initServices now, recent_events := [], max_events := 100,
    active_incidents := 0 }

/-- The `ServiceState` built inside `StateManager.update_from_event` from a
telemetry event: every field comes from the event, the placement from the
static registry. -/
def stateFromEvent (e : TelemetryEvent) : ServiceState :=
  { service_id := e.service_id, status := e.status, latency_ms := e.latency_ms,
    error_rate := e.error_rate, traffic_volume := e.traffic_volume,
    last_updated := e.timestamp,
    position := (lookupKey SERVICE_POSITIONS e.service_id).getD (0, 0, 0) }

/-- Method `StateManager.update_from_event`: overwrite the service state for a
known service id, then append the event to bounded history, evicting the
oldest entry when over capacity. -/
def update_from_event (s : StateM) (e : TelemetryEvent) : StateM :=
  let services :=
    if containsKey s.services e.service_id then
      setKey s.services e.service_id (stateFromEvent e)
    else s.services
  let r := s.recent_events ++ [e]
  { s with services := services,
           recent_events := if s.max_events < r.length then r.tail else r }

/-- Python 3 `round` to an integer: round half to even (banker's rounding),
as used by `round(x, k)`. -/
def pyRound (q : ℚ) : Int :=
  if Int.fract q < 1/2 then ⌊q⌋
  else if 1/2 < Int.fract q then ⌊q⌋ + 1
  else if ⌊q⌋ % 2 = 0 then ⌊q⌋ else ⌊q⌋ + 1

/-- Python `round(q, n)`: round to `n` decimal places, half to even. -/
def pyRoundTo (n : Nat) (q : ℚ) : ℚ :=
  (pyRound (q * 10 ^ n) : ℚ) / 10 ^ n

/-- Model `SystemState` from `models.py`. -/
structure SystemState where
  timestamp : String
  system_integrity : ℚ
  services : List ServiceState
  active_incidents : Int
  uptime_seconds : Int
deriving DecidableEq

/-- Method `StateManager.get_system_state` with the wall-clock reads (`now`,
`uptime`) threaded in as parameters. -/
def get_system_state (s : StateM) (now : String) (uptime : Int) : SystemState :=
  let services := s.services.map (·.2)
  let healthy_count := services.countP (fun st => decide (st.status = SStatus.healthy))
  let total_count := services.length
  let integrity : ℚ :=
    if 0 < total_count then (healthy_count : ℚ) / (total_count : ℚ) * 100 else 0
  { timestamp := now, system_integrity := pyRoundTo 1 integrity,
    services := services, active_incidents := s.active_incidents,
    uptime_seconds := uptime }

/-- Python slice `l[-k:]`: for `k = 0` this is `l[0:]`, the whole list. -/
def pySliceLast {α : Type} (l : List α) (k : Nat) : List α :=
  if k = 0 then l else l.drop (l.length - k)

/-- Method `StateManager.get_recent_events`: `self.recent_events[-limit:]`. -/
def get_recent_events (s : StateM) (limit : Nat) : List TelemetryEvent :=
  pySliceLast s.recent_events limit

/-- Method `StateManager.set_service_status` with `now` the timestamp taken at the
call. -/
def set_service_status (s : StateM) (service_id : String) (status : SStatus)
    (now : String) : StateM :=
  match lookupKey s.services service_id with
  | none => s
  | some current =>
    let updated : ServiceState :=
      { service_id := service_id, status := status,
        latency_ms := if status = .healthy then 500 else current.latency_ms,
        error_rate := if status = .healthy then 2/100 else current.error_rate,
        traffic_volume := if status = .healthy then 75 else current.traffic_volume,
        last_updated := now, position := current.position }
    { s with services := setKey s.services service_id updated }

/-- The last suffix of length at most `n` of a list. -/
def takeLast {α : Type} (n : Nat) (l : List α) : List α := l.drop (l.length - n)

/-- A subscriber channel of `websocket_manager.py`: `faulty` models a
websocket whose `send_json` raises; `inbox` records successful deliveries. -/
structure Conn where
  faulty : Bool
  inbox : List String
deriving DecidableEq

/-- A successful `send_json` delivery. -/
def deliver (m : String) (c : Conn) : Conn := { c with inbox := c.inbox ++ [m] }

/-- The clean-up loop of `WebSocketManager.broadcast`:
`for client_id in disconnected: del self.active_connections[client_id]`. -/
def removeKeys (l : List (String × Conn)) (ks : List String) :
    List (String × Conn) :=
  ks.foldl (fun cs k => cs.filter (fun p => p.1 != k)) l

/-- Method `WebSocketManager.broadcast`: early return when no connections; send to
every connection, collecting the ones whose send raised; delete those. -/
def broadcast (m : String) (conns : List (String × Conn)) :
    List (String × Conn) :=
  if conns.isEmpty then conns
  else
    let disconnected := (conns.filter (fun p => p.2.faulty)).map (·.1)
    let sent := conns.map (fun p => if p.2.faulty then p else (p.1, deliver m p.2))
    removeKeys sent disconnected

/-- A JSON-object payload of `websocket_manager.py`, modelled by its
key-to-value map. -/
def DictM : Type := String → Option String

/-- The empty payload. -/
def dempty : DictM := fun _ => none

/-- Adding one key to a Python dict literal. -/
def dset (d : DictM) (k v : String) : DictM :=
  fun k2 => if k2 = k then some v else d k2

/-- Python `{**d, **e}` spread: keys of `e` override keys of `d`. -/
def dmerge (d e : DictM) : DictM :=
  fun k => match e k with
    | some v => some v
    | none => d k

/-- The message built by `WebSocketManager.broadcast_state_update`:
`{"type": "state_update", **state}`. -/
def broadcast_state_update_msg (state : DictM) : DictM :=
  dmerge (dset dempty "type" "state_update") state

/-- The message built by `WebSocketManager.broadcast_alert`:
`{"type": "alert", "timestamp": gen_ts, **alert}` where `gen_ts` is the
timestamp generated at send time. -/
def broadcast_alert_msg (alert : DictM) (gen_ts : String) : DictM :=
  dmerge (dset (dset dempty "type" "alert") "timestamp" gen_ts) alert

/-- The message built by `WebSocketManager.broadcast_remediation_result`:
`{"type": "remediation_result", **result}`. -/
def broadcast_remediation_result_msg (result : DictM) : DictM :=
  dmerge (dset dempty "type" "remediation_result") result

/-- The service ids of `chaos_engine/main.py` `SERVICES`, in order. -/
def SERVICES : List String := ["gateway", "auth", "payment", "ai-brain", "database"]

/-- Constant `LATENCY_RANGES` from `chaos_engine/main.py` (inclusive bounds of
`random.randint`). -/
def LATENCY_RANGES (st : SStatus) : Int × Int :=
  match st with
  | .healthy => (200, 800)
  | .warning => (1000, 2000)
  | .critical => (3000, 6000)

/-- Constant `ERROR_RATE_RANGES` from `chaos_engine/main.py` (bounds of
`random.uniform`). -/
def ERROR_RATE_RANGES (st : SStatus) : ℚ × ℚ :=
  match st with
  | .healthy => (1/100, 3/100)
  | .warning => (5/100, 10/100)
  | .critical => (15/100, 80/100)

/-- Constant `TRAFFIC_VOLUME_RANGES` from `chaos_engine/main.py`. -/
def TRAFFIC_VOLUME_RANGES (st : SStatus) : Int × Int :=
  match st with
  | .healthy => (60, 100)
  | .warning => (30, 60)
  | .critical => (5, 30)

/-- The deferred callbacks the chaos engine schedules with
`asyncio.get_event_loop().call_later(2, ...)`. -/
inductive Callback
  | escalateCascade
  | finalCascade
  | completeRecovery
deriving DecidableEq

/-- The mutable state of `ChaosEngine` relevant to scenario semantics, plus
the event-loop clock and the pending `call_later` timers (absolute fire
time, callback). -/
structure Engine where
  mode : String
  service_states : List (String × SStatus)
  time : Nat
  timers : List (Nat × Callback)
deriving DecidableEq

/-- Comprehension `{s["id"]: "healthy" for s in SERVICES}`. -/
def allHealthy : List (String × SStatus) := SERVICES.map (fun s => (s, .healthy))

/-- Constructor `ChaosEngine.__init__`. -/
def initEngine : Engine :=
  { mode := "steady_state", service_states := allHealthy, time := 0, timers := [] }

/-- Scheduling `asyncio.get_event_loop().call_later(delay, c)` at the engine's current
loop time. -/
def schedule (s : Engine) (delay : Nat) (c : Callback) : Engine :=
  { s with timers := s.timers ++ [(s.time + delay, c)] }

/-- Method `ChaosEngine._trigger_cascade`. -/
def triggerCascade (s : Engine) : Engine :=
  let states := setKey (setKey s.service_states "ai-brain" .critical) "payment" .warning
  schedule { s with service_states := states } 2 .escalateCascade

/-- Method `ChaosEngine._begin_recovery`. -/
def beginRecovery (s : Engine) : Engine :=
  let states := s.service_states.map
    (fun p => if p.2 = SStatus.critical then (p.1, SStatus.warning) else p)
  schedule { s with service_states := states } 2 .completeRecovery

/-- Running one fired callback: `_escalate_cascade`, `_final_cascade` and
`_complete_recovery`, each of which re-checks the current mode before
applying its effect. -/
def runCallback (c : Callback) (s : Engine) : Engine :=
  match c with
  | .escalateCascade =>
    if s.mode = "cascading_failure" then
      let states := setKey (setKey s.service_states "payment" .critical) "auth" .warning
      schedule { s with service_states := states } 2 .finalCascade
    else s
  | .finalCascade =>
    if s.mode = "cascading_failure" then
      let states := setKey (setKey s.service_states "auth" .critical) "database" .warning
      { s with service_states := states }
    else s
  | .completeRecovery =>
    if s.mode = "recovery" then
      { s with service_states := allHealthy, mode := "steady_state" }
    else s

/-- Constant `valid_modes` in `ChaosEngine.set_mode`. -/
def validModes : List String :=
  ["steady_state", "latency_spike", "cascading_failure", "recovery"]

/-- Method `ChaosEngine.set_mode`: an invalid mode raises before any mutation, so
it leaves the engine state unchanged. -/
def set_mode (s : Engine) (m : String) : Engine :=
  if m ∈ validModes then
    let s1 := { s with mode := m }
    if m = "steady_state" then { s1 with service_states := allHealthy }
    else if m = "latency_spike" then
      { s1 with service_states := setKey s1.service_states "ai-brain" .critical }
    else if m = "cascading_failure" then triggerCascade s1
    else if m = "recovery" then beginRecovery s1
    else s1
  else s

/-- Index of the timer the event loop fires next by `tEnd`: the first timer
whose fire time is minimal among those already due. -/
def earliestDue (timers : List (Nat × Callback)) (tEnd : Nat) : Option Nat :=
  match (timers.filter (fun p => decide (p.1 ≤ tEnd))).map (·.1) with
  | [] => none
  | t :: ts => timers.findIdx? (fun p => p.1 == ts.foldl min t)

/-- Fire every timer due by `tEnd` in event-loop order, running each
callback at its scheduled time (so callbacks it schedules are relative to
that time).  `fuel` bounds the number of firings; `elapse` passes enough
fuel for every cascade/recovery chain. -/
def fireDue : Nat → Nat → Engine → Engine
  | 0, _, s => s
  | fuel + 1, tEnd, s =>
    match earliestDue s.timers tEnd with
    | none => s
    | some i =>
      match s.timers.get? i with
      | none => s
      | some (t, c) =>
        fireDue fuel tEnd
          (runCallback c { s with time := t, timers := s.timers.eraseIdx i })

/-- Let `d` time-units of event-loop time pass: all timers due in the
interval fire in order, then the clock advances to the end. -/
def elapse (s : Engine) (d : Nat) : Engine :=
  let tEnd := s.time + d
  let s1 := fireDue (2 * s.timers.length + 2) tEnd s
  { s1 with time := tEnd }

/-- An externally observable action on the chaos engine: a mode-change
request, or event-loop time passing. -/
inductive Act
  | setMode (m : String)
  | elapse (d : Nat)
deriving DecidableEq

/-- Apply one action. -/
def runAct (s : Engine) (a : Act) : Engine :=
  match a with
  | .setMode m => set_mode s m
  | .elapse d => elapse s d

/-- Run a whole execution. -/
def runEngine (s : Engine) (acts : List Act) : Engine := acts.foldl runAct s

/-- The status the chaos engine generates an event with: the scenario
status, with a 5% random blip from healthy to warning
(`if status == "healthy" and random.random() < 0.05`). -/
def effStatus (st : SStatus) (blip : Bool) : SStatus :=
  if st = .healthy then (if blip then .warning else st) else st

/-- The fixed message pools of `ChaosEngine.generate_event`. -/
def statusMessages (st : SStatus) : List String :=
  match st with
  | .healthy => ["Operating within normal parameters", "All systems nominal",
                 "Request processed successfully", "Connection stable"]
  | .warning => ["Elevated latency detected", "Increased error rate observed",
                 "Resource utilization above threshold", "Retry attempts increasing"]
  | .critical => ["Service degradation severe", "Multiple timeouts detected",
                  "Circuit breaker triggered", "Failover initiated"]

/-- Method `ChaosEngine.generate_event` with every random draw passed in
explicitly: `blip` is `random.random() < 0.05`, `lat` the `randint` draw,
`err` the `uniform` draw, `traf` the `randint` draw, `msgIdx` the
`random.choice` index and `md` the metadata draws already formatted. -/
def generate_event (ts sid : String) (st : SStatus) (blip : Bool) (lat : Int)
    (err : ℚ) (traf : Int) (msgIdx : Nat) (md : List (String × String)) :
    TelemetryEvent :=
  let status := effStatus st blip
  { timestamp := ts, service_id := sid, status := status, latency_ms := lat,
    error_rate := pyRoundTo 4 err, traffic_volume := traf,
    message := ((statusMessages status).getD (msgIdx % 4) ""), metadata := md }

/-- What `random.randint` / `random.uniform` guarantee about the draws of
one `generate_event` call, for the status the draw ranges are keyed by. -/
def validDraws (status : SStatus) (lat : Int) (err : ℚ) (traf : Int) : Prop :=
  (LATENCY_RANGES status).1 ≤ lat ∧ lat ≤ (LATENCY_RANGES status).2 ∧
  (ERROR_RATE_RANGES status).1 ≤ err ∧ err ≤ (ERROR_RATE_RANGES status).2 ∧
  (TRAFFIC_VOLUME_RANGES status).1 ≤ traf ∧ traf ≤ (TRAFFIC_VOLUME_RANGES status).2

/-! ### Helper lemmas: rounding -/

theorem pyRound_ge_floor (q : ℚ) : ⌊q⌋ ≤ pyRound q := by
  unfold pyRound
  split_ifs <;> omega

theorem floor_lt_ceil_of_fract_pos {q : ℚ} (h : 0 < Int.fract q) : ⌊q⌋ < ⌈q⌉ := by
  have h1 : (⌊q⌋ : ℚ) < q := by
    simp only [Int.fract] at h
    linarith
  have h2 : q ≤ (⌈q⌉ : ℚ) := Int.le_ceil q
  exact_mod_cast lt_of_lt_of_le h1 h2

theorem pyRound_le_ceil (q : ℚ) : pyRound q ≤ ⌈q⌉ := by
  unfold pyRound
  split_ifs with h1 h2 h3
  · exact Int.floor_le_ceil q
  · have := floor_lt_ceil_of_fract_pos (lt_trans (by norm_num) h2)
    omega
  · exact Int.floor_le_ceil q
  · have hf : Int.fract q = 1/2 := le_antisymm (not_lt.mp h2) (not_lt.mp h1)
    have : (0 : ℚ) < Int.fract q := by rw [hf]; norm_num
    have := floor_lt_ceil_of_fract_pos this
    omega

theorem pyRound_bounds {a b : Int} {q : ℚ} (ha : (a : ℚ) ≤ q) (hb : q ≤ (b : ℚ)) :
    a ≤ pyRound q ∧ pyRound q ≤ b :=
  ⟨le_trans (Int.le_floor.mpr ha) (pyRound_ge_floor q),
   le_trans (pyRound_le_ceil q) (Int.ceil_le.mpr hb)⟩

theorem pyRoundTo_bounds {n : Nat} {a b : Int} {q : ℚ}
    (ha : (a : ℚ) ≤ q * 10 ^ n) (hb : q * 10 ^ n ≤ (b : ℚ)) :
    (a : ℚ) / 10 ^ n ≤ pyRoundTo n q ∧ pyRoundTo n q ≤ (b : ℚ) / 10 ^ n := by
  obtain ⟨h1, h2⟩ := pyRound_bounds ha hb
  have c1 : (a : ℚ) ≤ ((pyRound (q * 10 ^ n) : Int) : ℚ) := by exact_mod_cast h1
  have c2 : ((pyRound (q * 10 ^ n) : Int) : ℚ) ≤ (b : ℚ) := by exact_mod_cast h2
  unfold pyRoundTo
  rw [div_eq_mul_inv, div_eq_mul_inv, div_eq_mul_inv]
  exact ⟨mul_le_mul_of_nonneg_right c1 (by positivity),
         mul_le_mul_of_nonneg_right c2 (by positivity)⟩

theorem pyRoundTo_zero (n : Nat) : pyRoundTo n 0 = 0 := by
  norm_num [pyRoundTo, pyRound, Int.fract]

/-! ### Helper lemmas: `takeLast` -/

theorem takeLast_all {α : Type} {n : Nat} {l : List α} (h : l.length ≤ n) :
    takeLast n l = l := by
  unfold takeLast
  have e : l.length - n = 0 := by omega
  simp [e]

theorem takeLast_length {α : Type} (n : Nat) (l : List α) :
    (takeLast n l).length = min n l.length := by
  unfold takeLast
  rw [List.length_drop]
  omega

theorem takeLast_takeLast {α : Type} {m n : Nat} (h : m ≤ n) (l : List α) :
    takeLast m (takeLast n l) = takeLast m l := by
  unfold takeLast
  rw [List.drop_drop]
  congr 1
  rw [List.length_drop]
  omega

theorem takeLast_append_large {α : Type} {n : Nat} {a b : List α}
    (h : n ≤ b.length) : takeLast n (a ++ b) = takeLast n b := by
  unfold takeLast
  have e : (a ++ b).length - n = a.length + (b.length - n) := by
    rw [List.length_append]; omega
  rw [e, ← List.drop_drop, List.drop_left]

theorem takeLast_append_small {α : Type} {n : Nat} {a b : List α}
    (h : b.length ≤ n) : takeLast n (a ++ b) = takeLast (n - b.length) a ++ b := by
  unfold takeLast
  have e : (a ++ b).length - n = a.length - (n - b.length) := by
    rw [List.length_append]; omega
  rw [e, List.drop_append_of_le_length (by omega)]

theorem takeLast_absorb {α : Type} (n : Nat) (l e : List α) :
    takeLast n (takeLast n l ++ e) = takeLast n (l ++ e) := by
  rcases le_or_lt n e.length with h | h
  · rw [takeLast_append_large h, takeLast_append_large h]
  · rw [takeLast_append_small (le_of_lt h), takeLast_append_small (le_of_lt h),
        takeLast_takeLast (by omega)]

/-! ### Helper lemmas: association lists -/

theorem containsKey_cons {α : Type} (p : String × α) (l : List (String × α))
    (k : String) : containsKey (p :: l) k = ((p.1 == k) || containsKey l k) := by
  unfold containsKey
  rw [List.find?_cons]
  cases p.1 == k <;> simp

theorem lookupKey_cons {α : Type} (p : String × α) (l : List (String × α))
    (k : String) :
    lookupKey (p :: l) k = if p.1 == k then some p.2 else lookupKey l k := by
  unfold lookupKey
  rw [List.find?_cons]
  cases p.1 == k <;> simp

theorem containsKey_replaceKey {α : Type} (l : List (String × α)) (k k2 : String)
    (v : α) : containsKey (replaceKey l k v) k2 = containsKey l k2 := by
  induction l with
  | nil => rfl
  | cons p l ih =>
    show containsKey ((if p.1 == k then (k, v) else p) :: replaceKey l k v) k2 = _
    cases hb : p.1 == k
    · rw [if_neg (by simp [hb]), containsKey_cons, containsKey_cons, ih]
    · have hk : p.1 = k := by simpa using hb
      rw [if_pos rfl, containsKey_cons, containsKey_cons, ih, hk]

theorem lookupKey_replaceKey_self {α : Type} {l : List (String × α)} {k : String}
    (v : α) (h : containsKey l k = true) :
    lookupKey (replaceKey l k v) k = some v := by
  induction l with
  | nil => simp [containsKey] at h
  | cons p l ih =>
    show lookupKey ((if p.1 == k then (k, v) else p) :: replaceKey l k v) k = _
    cases hb : p.1 == k
    · rw [containsKey_cons, hb, Bool.false_or] at h
      rw [if_neg (by simp [hb]), lookupKey_cons, if_neg (by simp [hb])]
      exact ih h
    · rw [if_pos rfl, lookupKey_cons, if_pos (by simp)]

theorem lookupKey_replaceKey_ne {α : Type} (l : List (String × α)) {k k2 : String}
    (v : α) (h : k2 ≠ k) : lookupKey (replaceKey l k v) k2 = lookupKey l k2 := by
  induction l with
  | nil => rfl
  | cons p l ih =>
    show lookupKey ((if p.1 == k then (k, v) else p) :: replaceKey l k v) k2 = _
    cases hb : p.1 == k
    · rw [if_neg (by simp [hb]), lookupKey_cons, lookupKey_cons, ih]
    · have hk : p.1 = k := by simpa using hb
      rw [if_pos rfl, lookupKey_cons, lookupKey_cons, ih, hk,
          if_neg (by simp [Ne.symm h]), if_neg (by simp [Ne.symm h])]

theorem containsKey_setKey {α : Type} {l : List (String × α)} {k : String}
    (k2 : String) (v : α) (h : containsKey l k = true) :
    containsKey (setKey l k v) k2 = containsKey l k2 := by
  rw [setKey, if_pos h, containsKey_replaceKey]

theorem lookupKey_setKey_self {α : Type} {l : List (String × α)} {k : String}
    (v : α) (h : containsKey l k = true) :
    lookupKey (setKey l k v) k = some v := by
  rw [setKey, if_pos h, lookupKey_replaceKey_self v h]

theorem lookupKey_setKey_ne {α : Type} {l : List (String × α)} {k k2 : String}
    (v : α) (hck : containsKey l k = true) (h : k2 ≠ k) :
    lookupKey (setKey l k v) k2 = lookupKey l k2 := by
  rw [setKey, if_pos hck, lookupKey_replaceKey_ne l v h]

theorem containsKey_eq_isSome_lookupKey {α : Type} (l : List (String × α))
    (k : String) : containsKey l k = (lookupKey l k).isSome := by
  unfold containsKey lookupKey
  cases l.find? (fun p => p.1 == k) <;> simp

/-! ### Claim C2: system integrity formula and bounds -/

theorem integrity_formula (c t : Nat) (hct : c ≤ t) :
    pyRoundTo 1 (if 0 < t then (c : ℚ) / (t : ℚ) * 100 else 0)
      = pyRoundTo 1 (100 * (c : ℚ) / (t : ℚ))
    ∧ 0 ≤ pyRoundTo 1 (if 0 < t then (c : ℚ) / (t : ℚ) * 100 else 0)
    ∧ pyRoundTo 1 (if 0 < t then (c : ℚ) / (t : ℚ) * 100 else 0) ≤ 100 := by
  have hq : (if 0 < t then (c : ℚ) / (t : ℚ) * 100 else 0) = 100 * (c : ℚ) / (t : ℚ) := by
    rcases Nat.eq_zero_or_pos t with h0 | hpos
    · subst h0
      norm_num
    · rw [if_pos hpos, mul_div_assoc, mul_comm]
  have hb1 : (0 : ℚ) ≤ 100 * (c : ℚ) / (t : ℚ) := by positivity
  have hb2 : 100 * (c : ℚ) / (t : ℚ) ≤ 100 := by
    rcases Nat.eq_zero_or_pos t with h0 | hpos
    · subst h0
      norm_num
    · have htp : (0 : ℚ) < (t : ℚ) := by exact_mod_cast hpos
      rw [div_le_iff₀ htp]
      have hc : (c : ℚ) ≤ (t : ℚ) := by exact_mod_cast hct
      nlinarith
  obtain ⟨hlo, hhi⟩ := pyRoundTo_bounds (n := 1) (a := 0) (b := 1000)
      (q := 100 * (c : ℚ) / (t : ℚ)) (by push_cast; nlinarith) (by push_cast; nlinarith)
  refine ⟨by rw [hq], ?_, ?_⟩
  · rw [hq]
    simpa using hlo
  · rw [hq]
    calc pyRoundTo 1 (100 * (c : ℚ) / (t : ℚ)) ≤ ((1000 : Int) : ℚ) / 10 ^ 1 := hhi
    _ ≤ 100 := by norm_num

/-- Claim C2: `get_system_state` returns `system_integrity` equal to
`round(100 × healthy_count / total_count, 1)`, always in `[0, 100]`, and
equal to `0` when there are no entities. -/
theorem claim_C2 (s : StateM) (now : String) (uptime : Int) :
    (get_system_state s now uptime).system_integrity
      = pyRoundTo 1 (100 * ((s.services.map (·.2)).countP
          (fun st => decide (st.status = SStatus.healthy)) : ℚ)
          / ((s.services.map (·.2)).length : ℚ))
    ∧ 0 ≤ (get_system_state s now uptime).system_integrity
    ∧ (get_system_state s now uptime).system_integrity ≤ 100
    ∧ (s.services = [] → (get_system_state s now uptime).system_integrity = 0) := by
  have key : (get_system_state s now uptime).system_integrity
      = pyRoundTo 1 (if 0 < (s.services.map (·.2)).length then
          ((s.services.map (·.2)).countP
            (fun st => decide (st.status = SStatus.healthy)) : ℚ)
            / ((s.services.map (·.2)).length : ℚ) * 100 else 0) := rfl
  obtain ⟨h1, h2, h3⟩ := integrity_formula
    ((s.services.map (·.2)).countP (fun st => decide (st.status = SStatus.healthy)))
    ((s.services.map (·.2)).length) (List.countP_le_length _)
  refine ⟨key.trans h1, by rw [key]; exact h2, by rw [key]; exact h3, fun hnil => ?_⟩
  rw [key, hnil]
  simp [pyRoundTo_zero]

/-- Concrete check of claim C2 with an empty registry: the degenerate-case
hypothesis is discharged and the integrity evaluates to `0`. -/
theorem claim_C2_witness :
    (get_system_state ⟨[], [], 100, 0⟩ "t" 0).system_integrity = 0
    ∧ 0 ≤ (get_system_state ⟨[], [], 100, 0⟩ "t" 0).system_integrity
    ∧ (get_system_state ⟨[], [], 100, 0⟩ "t" 0).system_integrity ≤ 100 :=
  ⟨(claim_C2 ⟨[], [], 100, 0⟩ "t" 0).2.2.2 rfl, (claim_C2 ⟨[], [], 100, 0⟩ "t" 0).2.1,
   (claim_C2 ⟨[], [], 100, 0⟩ "t" 0).2.2.1⟩

/-! ### Claim C7: `set_mode` to steady state -/

/-- Claim C7: `set_mode("steady_state")` immediately forces every entity's
scenario status to healthy (the whole map is replaced by the all-healthy
map), and applying it twice yields the same engine state as applying it
once. -/
theorem claim_C7 (s : Engine) :
    (set_mode s "steady_state").service_states = allHealthy
    ∧ set_mode (set_mode s "steady_state") "steady_state" = set_mode s "steady_state" := by
  constructor
  · simp [set_mode, validModes]
  · simp [set_mode, validModes]

/-! ### Claim C9: timestamps on broadcast messages -/

/-- Counterexample to claim C9: a remediation-result payload without its
own timestamp is broadcast as a message with no timestamp field at all
(same for a state-update payload); only the alert path stamps one. -/
theorem claim_C9_counterexample :
    broadcast_remediation_result_msg dempty "timestamp" = none
    ∧ broadcast_state_update_msg dempty "timestamp" = none
    ∧ broadcast_remediation_result_msg dempty "type" = some "remediation_result" := by
  refine ⟨rfl, rfl, rfl⟩

/-- Claim C9 as amended: only `broadcast_alert` stamps a generation
timestamp when the payload has none (the payload's own timestamp wins when
present); `broadcast_state_update` and `broadcast_remediation_result`
carry exactly the payload's timestamp field, adding none. -/
theorem claim_C9_amended (alert state result : DictM) (gen_ts : String) :
    broadcast_alert_msg alert gen_ts "timestamp"
      = (match alert "timestamp" with | some v => some v | none => some gen_ts)
    ∧ broadcast_state_update_msg state "timestamp" = state "timestamp"
    ∧ broadcast_remediation_result_msg result "timestamp" = result "timestamp" := by
  refine ⟨?_, ?_, ?_⟩
  · unfold broadcast_alert_msg dmerge dset dempty
    cases alert "timestamp" <;> simp
  · unfold broadcast_state_update_msg dmerge dset dempty
    cases state "timestamp" <;> simp
  · unfold broadcast_remediation_result_msg dmerge dset dempty
    cases result "timestamp" <;> simp

/-! ### Claim C4: `set_service_status` frame effect -/

/-- The `ServiceState` constructed inside `set_service_status` for a known
entity (the `updated` local of the source). -/
def statusOverride (cur : ServiceState) (id : String) (st : SStatus)
    (now : String) : ServiceState :=
  { service_id := id, status := st,
    latency_ms := if st = .healthy then 500 else cur.latency_ms,
    error_rate := if st = .healthy then 2/100 else cur.error_rate,
    traffic_volume := if st = .healthy then 75 else cur.traffic_volume,
    last_updated := now, position := cur.position }

/-- Claim C4: on a known entity, `set_service_status` with healthy resets
the metrics to the canonical baseline while preserving placement; with
warning/critical it changes only status and timestamp; other entities,
history and the incident counter are untouched; on an unknown id it is a
no-op. -/
theorem claim_C4 (s : StateM) (id : String) (st : SStatus) (now : String) :
    (∀ cur, lookupKey s.services id = some cur →
      (st = .healthy →
        lookupKey (set_service_status s id st now).services id
          = some ({ service_id := id, status := .healthy, latency_ms := 500,
                    error_rate := 2/100, traffic_volume := 75,
                    last_updated := now, position := cur.position } : ServiceState))
      ∧ (st ≠ .healthy →
        lookupKey (set_service_status s id st now).services id
          = some ({ service_id := id, status := st, latency_ms := cur.latency_ms,
                    error_rate := cur.error_rate, traffic_volume := cur.traffic_volume,
                    last_updated := now, position := cur.position } : ServiceState))
      ∧ (∀ k2, k2 ≠ id →
          lookupKey (set_service_status s id st now).services k2
            = lookupKey s.services k2)
      ∧ (set_service_status s id st now).recent_events = s.recent_events
      ∧ (set_service_status s id st now).active_incidents = s.active_incidents)
    ∧ (lookupKey s.services id = none → set_service_status s id st now = s) := by
  constructor
  · intro cur hcur
    have hck : containsKey s.services id = true := by
      rw [containsKey_eq_isSome_lookupKey, hcur, Option.isSome_some]
    have hserv : (set_service_status s id st now).services
        = setKey s.services id (statusOverride cur id st now) := by
      unfold set_service_status
      rw [hcur]
      rfl
    have hre : (set_service_status s id st now).recent_events = s.recent_events := by
      unfold set_service_status
      rw [hcur]
    have hai : (set_service_status s id st now).active_incidents
        = s.active_incidents := by
      unfold set_service_status
      rw [hcur]
    refine ⟨fun hh => ?_, fun hh => ?_, fun k2 hk2 => ?_, hre, hai⟩
    · rw [hserv, lookupKey_setKey_self _ hck]
      simp [statusOverride, hh]
    · rw [hserv, lookupKey_setKey_self _ hck]
      simp [statusOverride, hh]
    · rw [hserv, lookupKey_setKey_ne _ hck hk2]
  · intro hnone
    unfold set_service_status
    rw [hnone]

/-- The initial aggregator record for the `auth` service. -/
def exAuthInit : ServiceState :=
  { service_id := "auth", status := .healthy, latency_ms := 500,
    error_rate := 2/100, traffic_volume := 75, last_updated := "t0",
    position := (476/100, 0, 155/100) }

/-- Concrete check of claim C4: forcing `auth` to critical changes only its
status and timestamp. -/
theorem claim_C4_witness :
    lookupKey (initStateM "t0").services "auth" = some exAuthInit
    ∧ SStatus.critical ≠ SStatus.healthy
    ∧ lookupKey (set_service_status (initStateM "t0") "auth" .critical "t9").services "auth"
        = some ({ service_id := "auth", status := .critical, latency_ms := 500,
                  error_rate := 2/100, traffic_volume := 75, last_updated := "t9",
                  position := (476/100, 0, 155/100) } : ServiceState) :=
  ⟨rfl, by decide,
   ((claim_C4 (initStateM "t0") "auth" .critical "t9").1 exAuthInit rfl).2.1
     (by decide)⟩

/-! ### Claim C8: `get_recent_events` and the `limit = 0` slice -/

/-- A sample telemetry event used to exercise the history operations. -/
def exEvent0 : TelemetryEvent :=
  { timestamp := "t1", service_id := "auth", status := .critical,
    latency_ms := 4000, error_rate := 1/2, traffic_volume := 10,
    message := "m", metadata := [] }

/-- The aggregator after one event. -/
def exHistState : StateM := update_from_event (initStateM "t0") exEvent0

/-- Counterexample to claim C8: with one event in history, `limit = 0`
returns the whole history (Python `l[-0:]` is `l[0:]`), not the empty
list promised by the claim (`min(0, 1) = 0` entries). -/
theorem claim_C8_counterexample :
    get_recent_events exHistState 0 = [exEvent0]
    ∧ exHistState.recent_events.length = 1
    ∧ get_recent_events exHistState 0 ≠ [] := by
  have h : get_recent_events exHistState 0 = [exEvent0] := rfl
  refine ⟨h, rfl, ?_⟩
  rw [h]
  simp

/-- Claim C8 as amended: for `limit ≥ 1`, `get_recent_events` returns
exactly the last `min(limit, history length)` entries in order
(most-recent-last) and mutates nothing; for `limit = 0` it returns the
entire history. -/
theorem claim_C8_amended (s : StateM) (limit : Nat) :
    (1 ≤ limit → get_recent_events s limit = takeLast limit s.recent_events
      ∧ (get_recent_events s limit).length = min limit s.recent_events.length)
    ∧ (limit = 0 → get_recent_events s limit = s.recent_events) := by
  constructor
  · intro h1
    have hne : limit ≠ 0 := by omega
    constructor
    · unfold get_recent_events pySliceLast takeLast
      rw [if_neg hne]
    · unfold get_recent_events pySliceLast
      rw [if_neg hne, List.length_drop]
      omega
  · intro h0
    unfold get_recent_events pySliceLast
    rw [if_pos h0]

/-- Concrete check of the amended claim C8 at `limit = 2`. -/
theorem claim_C8_amended_witness :
    1 ≤ 2
    ∧ (get_recent_events exHistState 2 = takeLast 2 exHistState.recent_events
      ∧ (get_recent_events exHistState 2).length = min 2 exHistState.recent_events.length) :=
  ⟨by decide, (claim_C8_amended exHistState 2).1 (by decide)⟩

/-! ### Claim C1: last-write-wins and bounded FIFO history -/

theorem update_recent (s : StateM) (e : TelemetryEvent)
    (h : s.recent_events.length ≤ s.max_events) :
    (update_from_event s e).recent_events
      = takeLast s.max_events (s.recent_events ++ [e]) := by
  show (if s.max_events < (s.recent_events ++ [e]).length
        then (s.recent_events ++ [e]).tail else s.recent_events ++ [e]) = _
  rcases lt_or_ge s.recent_events.length s.max_events with hlt | hge
  · rw [if_neg (by simp only [List.length_append, List.length_singleton]; omega),
        takeLast_all (by simp only [List.length_append, List.length_singleton]; omega)]
  · have heq : s.recent_events.length = s.max_events := le_antisymm h hge
    rw [if_pos (by simp only [List.length_append, List.length_singleton]; omega)]
    unfold takeLast
    have e1 : (s.recent_events ++ [e]).length - s.max_events = 1 := by
      simp only [List.length_append, List.length_singleton]
      omega
    rw [e1, List.drop_one]

theorem foldl_update_recent : ∀ (es : List TelemetryEvent) (s : StateM),
    s.recent_events.length ≤ s.max_events →
    (es.foldl update_from_event s).recent_events
      = takeLast s.max_events (s.recent_events ++ es)
    ∧ (es.foldl update_from_event s).max_events = s.max_events := by
  intro es
  induction es with
  | nil =>
    intro s h
    constructor
    · rw [List.append_nil, takeLast_all h]
      rfl
    · rfl

  | cons e es ih =>
    intro s h
    have hmax : (update_from_event s e).max_events = s.max_events := rfl
    have h1 : (update_from_event s e).recent_events.length
        ≤ (update_from_event s e).max_events := by
      rw [hmax, update_recent s e h, takeLast_length]
      exact min_le_left _ _
    obtain ⟨ha, hb⟩ := ih (update_from_event s e) h1
    constructor
    · rw [List.foldl_cons, ha, hmax, update_recent s e h, takeLast_absorb,
          List.append_assoc]
      rfl
    · rw [List.foldl_cons, hb, hmax]

theorem update_services_lookup (s : StateM) (e : TelemetryEvent) (id : String)
    (h : containsKey s.services id = true) :
    lookupKey (update_from_event s e).services id
      = if e.service_id = id then some (stateFromEvent e)
        else lookupKey s.services id := by
  have hsrv : (update_from_event s e).services
      = if containsKey s.services e.service_id then
          setKey s.services e.service_id (stateFromEvent e)
        else s.services := rfl
  rw [hsrv]
  by_cases he : e.service_id = id
  · subst he
    rw [if_pos h, if_pos rfl, lookupKey_setKey_self _ h]
  · rw [if_neg he]
    by_cases hc : containsKey s.services e.service_id
    · rw [if_pos hc, lookupKey_setKey_ne _ hc (Ne.symm he)]
    · rw [if_neg hc]

theorem update_services_contains (s : StateM) (e : TelemetryEvent) (id : String) :
    containsKey (update_from_event s e).services id = containsKey s.services id := by
  have hsrv : (update_from_event s e).services
      = if containsKey s.services e.service_id then
          setKey s.services e.service_id (stateFromEvent e)
        else s.services := rfl
  rw [hsrv]
  by_cases hc : containsKey s.services e.service_id
  · rw [if_pos hc, containsKey_setKey _ _ hc]
  · rw [if_neg hc]

theorem foldl_update_lookup : ∀ (es : List TelemetryEvent) (s : StateM) (id : String),
    containsKey s.services id = true →
    lookupKey ((es.foldl update_from_event s).services) id
      = (match es.reverse.find? (fun e2 => e2.service_id == id) with
         | some e2 => some (stateFromEvent e2)
         | none => lookupKey s.services id) := by
  intro es
  induction es with
  | nil =>
    intro s id h
    rfl
  | cons e es ih =>
    intro s id h
    have h2 : containsKey (update_from_event s e).services id = true := by
      rw [update_services_contains]
      exact h
    rw [List.foldl_cons, ih (update_from_event s e) id h2, List.reverse_cons,
        List.find?_append]
    cases hf : es.reverse.find? (fun e2 => e2.service_id == id) with
    | none =>
      show lookupKey (update_from_event s e).services id
          = (match List.find? (fun e2 => e2.service_id == id) [e] with
             | some e2 => some (stateFromEvent e2)
             | none => lookupKey s.services id)
      rw [update_services_lookup s e id h]
      by_cases he : e.service_id = id
      · simp [List.find?, he]
      · have hbe : (e.service_id == id) = false := by simpa using he
        simp [List.find?, he, hbe]
    | some v =>
      rfl

/-- Claim C1: from the initial aggregator, for every event sequence, the
state of each known entity is the one derived from the last event for that
entity id (its initial state when no event mentions it), and the bounded
history holds exactly the most recent `min(N, 100)` events in arrival
order with the oldest evicted first. -/
theorem claim_C1 (now : String) (es : List TelemetryEvent) (id : String)
    (h : containsKey (initStateM now).services id = true) :
    lookupKey ((es.foldl update_from_event (initStateM now)).services) id
      = (match es.reverse.find? (fun e2 => e2.service_id == id) with
         | some e2 => some (stateFromEvent e2)
         | none => lookupKey (initStateM now).services id)
    ∧ (es.foldl update_from_event (initStateM now)).recent_events = takeLast 100 es
    ∧ (es.foldl update_from_event (initStateM now)).recent_events.length
        = min es.length 100 := by
  obtain ⟨ha, _⟩ := foldl_update_recent es (initStateM now) (by simp [initStateM])
  refine ⟨foldl_update_lookup es (initStateM now) id h, ?_, ?_⟩
  · rw [ha]
    rfl
  · rw [ha, takeLast_length]
    show min 100 ([] ++ es).length = _
    rw [List.nil_append, Nat.min_comm]

/-- A first sample event for `auth` (warning). -/
def exEventA : TelemetryEvent :=
  { timestamp := "t1", service_id := "auth", status := .warning,
    latency_ms := 1500, error_rate := 7/100, traffic_volume := 45,
    message := "w", metadata := [] }

/-- A second sample event for `auth` (critical): the later write must win. -/
def exEventB : TelemetryEvent :=
  { timestamp := "t2", service_id := "auth", status := .critical,
    latency_ms := 5000, error_rate := 40/100, traffic_volume := 8,
    message := "c", metadata := [] }

/-- Concrete check of claim C1 with two events for `auth`: the second
(last) event wins and history holds both events in order. -/
theorem claim_C1_witness :
    containsKey (initStateM "t0").services "auth" = true
    ∧ lookupKey (([exEventA, exEventB].foldl update_from_event (initStateM "t0")).services) "auth"
        = some (stateFromEvent exEventB)
    ∧ ([exEventA, exEventB].foldl update_from_event (initStateM "t0")).recent_events
        = takeLast 100 [exEventA, exEventB]
    ∧ ([exEventA, exEventB].foldl update_from_event (initStateM "t0")).recent_events.length
        = min 2 100 :=
  ⟨rfl, (claim_C1 "t0" [exEventA, exEventB] "auth" rfl).1,
   (claim_C1 "t0" [exEventA, exEventB] "auth" rfl).2.1,
   (claim_C1 "t0" [exEventA, exEventB] "auth" rfl).2.2⟩

/-! ### Claim C3: broadcast fan-out with a faulty subscriber -/

theorem countP_not_add {α : Type} (p : α → Bool) (l : List α) :
    l.countP (fun a => !p a) + l.countP p = l.length := by
  induction l with
  | nil => rfl
  | cons a l ih =>
    rw [List.countP_cons, List.countP_cons]
    cases h : p a <;> simp [h] <;> omega

theorem contains_eq_true_iff (ks : List String) (x : String) :
    ks.contains x = true ↔ x ∈ ks :=
  List.elem_iff

theorem removeKeys_eq_filter : ∀ (ks : List String) (l : List (String × Conn)),
    removeKeys l ks = l.filter (fun p => !(ks.contains p.1)) := by
  intro ks
  induction ks with
  | nil =>
    intro l
    simp [removeKeys]
  | cons k ks ih =>
    intro l
    show removeKeys (l.filter (fun p => p.1 != k)) ks = _
    rw [ih, List.filter_filter]
    apply List.filter_congr
    intro p _
    rw [List.contains_cons]
    cases hpk : p.1 == k <;> cases hks : ks.contains p.1 <;> simp [hpk, hks, bne]

/-- Claim C3: broadcasting to zero subscribers is a no-op; with exactly one
faulty subscriber among `N`, the message is delivered to the other `N − 1`
subscribers (their inboxes grow by the message), only the faulty one is
unregistered during the same pass, and every other subscriber stays
registered. -/
theorem claim_C3 (m : String) (conns : List (String × Conn))
    (hnd : (conns.map (·.1)).Nodup)
    (hone : conns.countP (fun p => p.2.faulty) = 1) :
    broadcast m [] = []
    ∧ broadcast m conns
        = (conns.filter (fun p => !p.2.faulty)).map (fun p => (p.1, deliver m p.2))
    ∧ (broadcast m conns).length = conns.length - 1
    ∧ (∀ p ∈ conns, p.2.faulty = true → ∀ q ∈ broadcast m conns, q.1 ≠ p.1) := by
  have hne : conns ≠ [] := by
    intro h0
    rw [h0] at hone
    simp at hone
  have hkey : broadcast m conns
      = (conns.map (fun p => if p.2.faulty then p else (p.1, deliver m p.2))).filter
          (fun q => !(((conns.filter (fun p => p.2.faulty)).map (·.1)).contains q.1)) := by
    unfold broadcast
    rw [if_neg (by simp [List.isEmpty_iff, hne])]
    exact removeKeys_eq_filter _ _
  have hinj := List.inj_on_of_nodup_map hnd
  have hcontains : ∀ p ∈ conns,
      ((conns.filter (fun r => r.2.faulty)).map (·.1)).contains p.1 = p.2.faulty := by
    intro p hp
    cases hf : p.2.faulty
    · rw [Bool.eq_false_iff]
      intro hcon
      have hmem : p.1 ∈ (conns.filter (fun r => r.2.faulty)).map (·.1) :=
        (contains_eq_true_iff _ _).mp hcon
      obtain ⟨q, hq, hq1⟩ := List.mem_map.mp hmem
      obtain ⟨hqc, hqf⟩ := List.mem_filter.mp hq
      have hqp : q = p := hinj hqc hp hq1
      rw [hqp, hf] at hqf
      exact Bool.false_ne_true hqf
    · rw [contains_eq_true_iff]
      exact List.mem_map_of_mem _ (List.mem_filter.mpr ⟨hp, hf⟩)
  have hmain : broadcast m conns
      = (conns.filter (fun p => !p.2.faulty)).map (fun p => (p.1, deliver m p.2)) := by
    rw [hkey, List.filter_map]
    rw [List.filter_congr (q := fun p => !p.2.faulty) ?hpt]
    case hpt =>
      intro p hp
      have hg1 : ((fun p : String × Conn =>
          if p.2.faulty then p else (p.1, deliver m p.2)) p).1 = p.1 := by
        by_cases hf : p.2.faulty = true <;> simp [hf]
      simp only [Function.comp_apply, hg1, hcontains p hp]
    apply List.map_congr_left
    intro p hp
    obtain ⟨_, hnf⟩ := List.mem_filter.mp hp
    rw [Bool.not_eq_true'] at hnf
    simp [hnf]
  refine ⟨rfl, hmain, ?_, ?_⟩
  · rw [hmain, List.length_map, ← List.countP_eq_length_filter]
    have hadd := countP_not_add (fun p : String × Conn => p.2.faulty) conns
    omega
  · intro p hp hpf q hq
    rw [hmain] at hq
    obtain ⟨r, hr, hq_eq⟩ := List.mem_map.mp hq
    obtain ⟨hrc, hrnf⟩ := List.mem_filter.mp hr
    intro hq1
    have hr1 : r.1 = p.1 := by
      rw [← hq_eq] at hq1
      exact hq1
    have hrp : r = p := hinj hrc hp hr1
    rw [hrp, hpf] at hrnf
    simp at hrnf

/-- Three registered subscribers, the middle one faulty. -/
def exConns : List (String × Conn) :=
  [("a", ⟨false, []⟩), ("b", ⟨true, []⟩), ("c", ⟨false, []⟩)]

/-- Concrete check of claim C3: broadcasting to `exConns` delivers to `a`
and `c`, drops `b`, and the result has `3 − 1 = 2` subscribers. -/
theorem claim_C3_witness :
    (exConns.map (·.1)).Nodup
    ∧ exConns.countP (fun p => p.2.faulty) = 1
    ∧ broadcast "ping" exConns
        = [("a", ⟨false, ["ping"]⟩), ("c", ⟨false, ["ping"]⟩)]
    ∧ (broadcast "ping" exConns).length = exConns.length - 1 :=
  ⟨by decide, by decide,
   ((claim_C3 "ping" exConns (by decide) (by decide)).2.1).trans rfl,
   (claim_C3 "ping" exConns (by decide) (by decide)).2.2.1⟩

/-! ### Timer-firing lemmas for the chaos engine -/

theorem fireDue_succ (fuel tEnd : Nat) (s : Engine) :
    fireDue (fuel + 1) tEnd s
      = (match earliestDue s.timers tEnd with
        | none => s
        | some i =>
          match s.timers.get? i with
          | none => s
          | some (t, c) =>
            fireDue fuel tEnd
              (runCallback c { s with time := t, timers := s.timers.eraseIdx i })) := rfl

theorem fireDue_none (fuel tEnd : Nat) (s : Engine)
    (h : ∀ tc ∈ s.timers, ¬ tc.1 ≤ tEnd) : fireDue fuel tEnd s = s := by
  cases fuel with
  | zero => rfl
  | succ fuel =>
    have hfilter : s.timers.filter (fun p => decide (p.1 ≤ tEnd)) = [] := by
      rw [List.filter_eq_nil_iff]
      intro a ha
      simpa using h a ha
    have hE : earliestDue s.timers tEnd = none := by
      unfold earliestDue
      rw [hfilter]
      rfl
    rw [fireDue_succ, hE]

theorem fireDue_step (fuel tEnd t : Nat) (c : Callback) (s s2 : Engine)
    (hts : s.timers = [(t, c)]) (h : t ≤ tEnd)
    (hrc : runCallback c { s with time := t, timers := [] } = s2) :
    fireDue (fuel + 1) tEnd s = fireDue fuel tEnd s2 := by
  have hE : earliestDue s.timers tEnd = some 0 := by
    rw [hts]
    unfold earliestDue
    simp [List.filter_cons, decide_eq_true h, List.findIdx?_cons]
  rw [fireDue_succ, hE, hts]
  show fireDue fuel tEnd (runCallback c { s with time := t, timers := [] }) = _
  rw [hrc]

theorem elapse_eq (s s2 : Engine) (d : Nat)
    (h : fireDue (2 * s.timers.length + 2) (s.time + d) s = s2) :
    elapse s d = { s2 with time := s.time + d } := by
  show { fireDue (2 * s.timers.length + 2) (s.time + d) s with time := s.time + d } = _
  rw [h]

/-! ### Claim C5: the full cascade under uninterrupted CascadingFailure -/

/-- Engine state right after `set_mode("cascading_failure")` from steady
state: inference entity critical, first dependent warning, escalation
scheduled at time 2. -/
def cascadeStage1 : Engine :=
  { mode := "cascading_failure",
    service_states := [("gateway", .healthy), ("auth", .healthy),
      ("payment", .warning), ("ai-brain", .critical), ("database", .healthy)],
    time := 0, timers := [(2, .escalateCascade)] }

/-- Engine state after `_escalate_cascade` fires at time 2. -/
def cascadeStage2 : Engine :=
  { mode := "cascading_failure",
    service_states := [("gateway", .healthy), ("auth", .warning),
      ("payment", .critical), ("ai-brain", .critical), ("database", .healthy)],
    time := 2, timers := [(4, .finalCascade)] }

/-- Engine state after `_final_cascade` fires at time 4. -/
def cascadeStage3 : Engine :=
  { mode := "cascading_failure",
    service_states := [("gateway", .healthy), ("auth", .critical),
      ("payment", .critical), ("ai-brain", .critical), ("database", .warning)],
    time := 4, timers := [] }

/-- Claim C5: from steady state, entering CascadingFailure and letting both
scheduled escalations fire (first elapse at least one delay, total at least
two delays) yields exactly ai-brain/payment/auth critical, database
warning, and gateway still healthy. -/
theorem claim_C5 (d1 d2 : Nat) (h1 : 2 ≤ d1) (h2 : 4 ≤ d1 + d2) :
    (runEngine initEngine [.setMode "cascading_failure", .elapse d1, .elapse d2]).service_states
      = [("gateway", .healthy), ("auth", .critical), ("payment", .critical),
         ("ai-brain", .critical), ("database", .warning)]
    ∧ (runEngine initEngine [.setMode "cascading_failure", .elapse d1, .elapse d2]).mode
      = "cascading_failure" := by
  have e0 : runEngine initEngine [.setMode "cascading_failure", .elapse d1, .elapse d2]
      = elapse (elapse (set_mode initEngine "cascading_failure") d1) d2 := rfl
  have e1 : set_mode initEngine "cascading_failure" = cascadeStage1 := by decide
  rw [e0, e1]
  rcases le_or_lt 4 d1 with h4 | h4
  · -- both escalations fire during the first elapse
    have st1 : fireDue 4 (0 + d1) cascadeStage1 = fireDue 3 (0 + d1) cascadeStage2 :=
      fireDue_step 3 (0 + d1) 2 .escalateCascade cascadeStage1 cascadeStage2 rfl
        (by omega) rfl
    have st2 : fireDue 3 (0 + d1) cascadeStage2 = fireDue 2 (0 + d1) cascadeStage3 :=
      fireDue_step 2 (0 + d1) 4 .finalCascade cascadeStage2 cascadeStage3 rfl
        (by omega) rfl
    have st3 : fireDue 2 (0 + d1) cascadeStage3 = cascadeStage3 :=
      fireDue_none _ _ _ (by
        intro tc htc
        simp [cascadeStage3] at htc)
    have hf1 : fireDue (2 * cascadeStage1.timers.length + 2)
        (cascadeStage1.time + d1) cascadeStage1 = cascadeStage3 := by
      calc fireDue (2 * cascadeStage1.timers.length + 2)
            (cascadeStage1.time + d1) cascadeStage1
          = fireDue 4 (0 + d1) cascadeStage1 := rfl
        _ = cascadeStage3 := by rw [st1, st2, st3]
    have hE1 : elapse cascadeStage1 d1
        = { cascadeStage3 with time := cascadeStage1.time + d1 } :=
      elapse_eq _ _ _ hf1
    have hf2 : fireDue
        (2 * ({ cascadeStage3 with time := cascadeStage1.time + d1 }).timers.length + 2)
        (({ cascadeStage3 with time := cascadeStage1.time + d1 }).time + d2)
        { cascadeStage3 with time := cascadeStage1.time + d1 }
        = { cascadeStage3 with time := cascadeStage1.time + d1 } :=
      fireDue_none _ _ _ (by
        intro tc htc
        simp [cascadeStage3] at htc)
    have hE2 : elapse { cascadeStage3 with time := cascadeStage1.time + d1 } d2
        = { { cascadeStage3 with time := cascadeStage1.time + d1 } with
            time := ({ cascadeStage3 with time := cascadeStage1.time + d1 }).time + d2 } :=
      elapse_eq _ _ _ hf2
    rw [hE1, hE2]
    exact ⟨rfl, rfl⟩
  · -- the final escalation fires during the second elapse
    have st1 : fireDue 4 (0 + d1) cascadeStage1 = fireDue 3 (0 + d1) cascadeStage2 :=
      fireDue_step 3 (0 + d1) 2 .escalateCascade cascadeStage1 cascadeStage2 rfl
        (by omega) rfl
    have st2 : fireDue 3 (0 + d1) cascadeStage2 = cascadeStage2 :=
      fireDue_none _ _ _ (by
        intro tc htc
        have htc2 : tc = (4, Callback.finalCascade) := by
          simpa [cascadeStage2] using htc
        subst htc2
        simp
        omega)
    have hf1 : fireDue (2 * cascadeStage1.timers.length + 2)
        (cascadeStage1.time + d1) cascadeStage1 = cascadeStage2 := by
      calc fireDue (2 * cascadeStage1.timers.length + 2)
            (cascadeStage1.time + d1) cascadeStage1
          = fireDue 4 (0 + d1) cascadeStage1 := rfl
        _ = cascadeStage2 := by rw [st1, st2]
    have hE1 : elapse cascadeStage1 d1
        = { cascadeStage2 with time := cascadeStage1.time + d1 } :=
      elapse_eq _ _ _ hf1
    have stB1 : fireDue 4
        (({ cascadeStage2 with time := cascadeStage1.time + d1 }).time + d2)
        { cascadeStage2 with time := cascadeStage1.time + d1 }
        = fireDue 3
          (({ cascadeStage2 with time := cascadeStage1.time + d1 }).time + d2)
          cascadeStage3 :=
      fireDue_step 3 _ 4 .finalCascade _ cascadeStage3 rfl
        (by
          show 4 ≤ 0 + d1 + d2
          omega)
        rfl
    have stB2 : fireDue 3
        (({ cascadeStage2 with time := cascadeStage1.time + d1 }).time + d2)
        cascadeStage3 = cascadeStage3 :=
      fireDue_none _ _ _ (by
        intro tc htc
        simp [cascadeStage3] at htc)
    have hfB : fireDue
        (2 * ({ cascadeStage2 with time := cascadeStage1.time + d1 }).timers.length + 2)
        (({ cascadeStage2 with time := cascadeStage1.time + d1 }).time + d2)
        { cascadeStage2 with time := cascadeStage1.time + d1 } = cascadeStage3 := by
      calc fireDue
            (2 * ({ cascadeStage2 with time := cascadeStage1.time + d1 }).timers.length + 2)
            (({ cascadeStage2 with time := cascadeStage1.time + d1 }).time + d2)
            { cascadeStage2 with time := cascadeStage1.time + d1 }
          = fireDue 4
            (({ cascadeStage2 with time := cascadeStage1.time + d1 }).time + d2)
            { cascadeStage2 with time := cascadeStage1.time + d1 } := rfl
        _ = cascadeStage3 := by rw [stB1, stB2]
    have hE2 : elapse { cascadeStage2 with time := cascadeStage1.time + d1 } d2
        = { cascadeStage3 with
            time := ({ cascadeStage2 with time := cascadeStage1.time + d1 }).time + d2 } :=
      elapse_eq _ _ _ hfB
    rw [hE1, hE2]
    exact ⟨rfl, rfl⟩

/-- Concrete check of claim C5 with the two scheduled 2-unit delays. -/
theorem claim_C5_witness :
    2 ≤ 2 ∧ 4 ≤ 2 + 2
    ∧ (runEngine initEngine [.setMode "cascading_failure", .elapse 2, .elapse 2]).service_states
      = [("gateway", .healthy), ("auth", .critical), ("payment", .critical),
         ("ai-brain", .critical), ("database", .warning)]
    ∧ (runEngine initEngine [.setMode "cascading_failure", .elapse 2, .elapse 2]).mode
      = "cascading_failure" :=
  ⟨by decide, by decide, (claim_C5 2 2 (by decide) (by decide)).1,
   (claim_C5 2 2 (by decide) (by decide)).2⟩

/-! ### Claim C6: pending escalations and mode changes -/

/-- A trace that switches away from CascadingFailure and back before the
first scheduled escalation fires. -/
def cexTrace : List Act :=
  [.setMode "cascading_failure", .elapse 1, .setMode "steady_state",
   .setMode "cascading_failure", .elapse 1]

/-- Counterexample to claim C6: in `cexTrace`, the escalation scheduled at
time 0 — before the switch away from CascadingFailure — still fires at
time 2 (the mode is CascadingFailure again) and sets payment critical and
auth warning; the escalation scheduled by the re-entry is still pending at
time 3, and before the final elapse payment was only warning. -/
theorem claim_C6_counterexample :
    lookupKey (runEngine initEngine cexTrace).service_states "payment"
      = some .critical
    ∧ lookupKey (runEngine initEngine cexTrace).service_states "auth"
      = some .warning
    ∧ (runEngine initEngine cexTrace).timers
      = [(3, .escalateCascade), (4, .finalCascade)]
    ∧ lookupKey (runEngine initEngine (cexTrace.take 4)).service_states "payment"
      = some .warning := by
  refine ⟨by decide, by decide, by decide, by decide⟩

theorem fireDue_no_cascade : ∀ (fuel tEnd : Nat) (s : Engine),
    s.mode ≠ "cascading_failure" →
    (∀ tc ∈ s.timers, tc.2 ≠ Callback.completeRecovery) →
    (fireDue fuel tEnd s).service_states = s.service_states
    ∧ (fireDue fuel tEnd s).mode = s.mode := by
  intro fuel
  induction fuel with
  | zero =>
    intro tEnd s _ _
    exact ⟨rfl, rfl⟩
  | succ fuel ih =>
    intro tEnd s hm ht
    rw [fireDue_succ]
    split
    · exact ⟨rfl, rfl⟩
    · rename_i i hE
      split
      · exact ⟨rfl, rfl⟩
      · rename_i t c hg
        have hmem : (t, c) ∈ s.timers := List.get?_mem hg
        have hcn : c ≠ .completeRecovery := ht (t, c) hmem
        have hrc : runCallback c { s with time := t, timers := s.timers.eraseIdx i }
            = { s with time := t, timers := s.timers.eraseIdx i } := by
          cases c with
          | escalateCascade => simp [runCallback, hm]
          | finalCascade => simp [runCallback, hm]
          | completeRecovery => exact absurd rfl hcn
        rw [hrc]
        exact ih tEnd { s with time := t, timers := s.timers.eraseIdx i } hm
          (fun tc2 htc2 => ht tc2 (List.mem_of_mem_eraseIdx htc2))

/-- Claim C6 as amended: a pending cascade escalation applies only if the
mode is CascadingFailure at the moment it fires.  While the mode is
anything else, firing either escalation callback is a complete no-op, and
any amount of elapsed time leaves the entity states and the mode
untouched.  (As the counterexample shows, returning to CascadingFailure
before the timer fires lets the pre-switch escalation apply, so the
original claim's "including executions that later return" is false.) -/
theorem claim_C6_amended (s : Engine) (d : Nat)
    (hm : s.mode ≠ "cascading_failure")
    (ht : ∀ tc ∈ s.timers, tc.2 ≠ Callback.completeRecovery) :
    (elapse s d).service_states = s.service_states
    ∧ (elapse s d).mode = s.mode
    ∧ runCallback .escalateCascade s = s
    ∧ runCallback .finalCascade s = s := by
  obtain ⟨h1, h2⟩ := fireDue_no_cascade (2 * s.timers.length + 2) (s.time + d) s hm ht
  refine ⟨h1, h2, by simp [runCallback, hm], by simp [runCallback, hm]⟩

/-- A steady-state engine with a stale escalation still pending. -/
def cexEngine : Engine :=
  { mode := "steady_state", service_states := allHealthy, time := 0,
    timers := [(2, .escalateCascade)] }

/-- Concrete check of the amended claim C6: with the mode switched away,
the pending escalation fires as a no-op. -/
theorem claim_C6_amended_witness :
    cexEngine.mode ≠ "cascading_failure"
    ∧ (∀ tc ∈ cexEngine.timers, tc.2 ≠ Callback.completeRecovery)
    ∧ (elapse cexEngine 5).service_states = cexEngine.service_states
    ∧ runCallback .escalateCascade cexEngine = cexEngine :=
  ⟨by decide, by decide, (claim_C6_amended cexEngine 5 (by decide) (by decide)).1,
   (claim_C6_amended cexEngine 5 (by decide) (by decide)).2.2.1⟩

/-! ### Claim C10: generated events respect the event-model bounds -/

theorem round4_in (a b : Int) (err : ℚ) (ha : (a : ℚ) / 10 ^ 4 ≤ err)
    (hb : err ≤ (b : ℚ) / 10 ^ 4) :
    (a : ℚ) / 10 ^ 4 ≤ pyRoundTo 4 err ∧ pyRoundTo 4 err ≤ (b : ℚ) / 10 ^ 4 := by
  have h4 : (0 : ℚ) < 10 ^ 4 := by norm_num
  apply pyRoundTo_bounds
  · rw [div_le_iff₀ h4] at ha
    exact ha
  · rw [le_div_iff₀ h4] at hb
    exact hb

theorem draws_bounds (S : SStatus) (lat : Int) (err : ℚ) (traf : Int)
    (h : validDraws S lat err traf) :
    (200 ≤ lat ∧ lat ≤ 6000) ∧ (0 ≤ lat ∧ lat ≤ 10000)
    ∧ (1/100 ≤ pyRoundTo 4 err ∧ pyRoundTo 4 err ≤ 80/100)
    ∧ (0 ≤ pyRoundTo 4 err ∧ pyRoundTo 4 err ≤ 1)
    ∧ (5 ≤ traf ∧ traf ≤ 100) ∧ (0 ≤ traf ∧ traf ≤ 100) := by
  obtain ⟨hl1, hl2, he1, he2, ht1, ht2⟩ := h
  cases S with
  | healthy =>
    have l1 : (200 : Int) ≤ lat := hl1
    have l2 : lat ≤ 800 := hl2
    have e1 : (1 : ℚ)/100 ≤ err := he1
    have e2 : err ≤ 3/100 := he2
    have t1 : (60 : Int) ≤ traf := ht1
    have t2 : traf ≤ 100 := ht2
    obtain ⟨r1, r2⟩ := round4_in 100 300 err
      (by push_cast; linarith) (by push_cast; linarith)
    have c1 : ((100 : Int) : ℚ) / 10 ^ 4 = 1/100 := by norm_num
    have c2 : ((300 : Int) : ℚ) / 10 ^ 4 = 3/100 := by norm_num
    rw [c1] at r1
    rw [c2] at r2
    exact ⟨⟨by omega, by omega⟩, ⟨by omega, by omega⟩,
      ⟨by linarith, by linarith⟩, ⟨by linarith, by linarith⟩,
      ⟨by omega, by omega⟩, ⟨by omega, by omega⟩⟩
  | warning =>
    have l1 : (1000 : Int) ≤ lat := hl1
    have l2 : lat ≤ 2000 := hl2
    have e1 : (5 : ℚ)/100 ≤ err := he1
    have e2 : err ≤ 10/100 := he2
    have t1 : (30 : Int) ≤ traf := ht1
    have t2 : traf ≤ 60 := ht2
    obtain ⟨r1, r2⟩ := round4_in 500 1000 err
      (by push_cast; linarith) (by push_cast; linarith)
    have c1 : ((500 : Int) : ℚ) / 10 ^ 4 = 5/100 := by norm_num
    have c2 : ((1000 : Int) : ℚ) / 10 ^ 4 = 10/100 := by norm_num
    rw [c1] at r1
    rw [c2] at r2
    exact ⟨⟨by omega, by omega⟩, ⟨by omega, by omega⟩,
      ⟨by linarith, by linarith⟩, ⟨by linarith, by linarith⟩,
      ⟨by omega, by omega⟩, ⟨by omega, by omega⟩⟩
  | critical =>
    have l1 : (3000 : Int) ≤ lat := hl1
    have l2 : lat ≤ 6000 := hl2
    have e1 : (15 : ℚ)/100 ≤ err := he1
    have e2 : err ≤ 80/100 := he2
    have t1 : (5 : Int) ≤ traf := ht1
    have t2 : traf ≤ 30 := ht2
    obtain ⟨r1, r2⟩ := round4_in 1500 8000 err
      (by push_cast; linarith) (by push_cast; linarith)
    have c1 : ((1500 : Int) : ℚ) / 10 ^ 4 = 15/100 := by norm_num
    have c2 : ((8000 : Int) : ℚ) / 10 ^ 4 = 80/100 := by norm_num
    rw [c1] at r1
    rw [c2] at r2
    exact ⟨⟨by omega, by omega⟩, ⟨by omega, by omega⟩,
      ⟨by linarith, by linarith⟩, ⟨by linarith, by linarith⟩,
      ⟨by omega, by omega⟩, ⟨by omega, by omega⟩⟩

/-- Claim C10: whatever the current scenario status and random draws, a
generated telemetry event satisfies the event model's bounded-field
constraints — status is one of the three statuses, latency in
`[200, 6000] ⊆ [0, 10000]`, error rate in `[0.01, 0.80] ⊆ [0, 1]` (after
rounding to 4 places) and traffic volume in `[5, 100] ⊆ [0, 100]` — so
boundary validation never rejects it. -/
theorem claim_C10 (ts sid : String) (st : SStatus) (blip : Bool) (lat : Int)
    (err : ℚ) (traf : Int) (msgIdx : Nat) (md : List (String × String))
    (h : validDraws (effStatus st blip) lat err traf) :
    ((generate_event ts sid st blip lat err traf msgIdx md).status = SStatus.healthy
      ∨ (generate_event ts sid st blip lat err traf msgIdx md).status = SStatus.warning
      ∨ (generate_event ts sid st blip lat err traf msgIdx md).status = SStatus.critical)
    ∧ (200 ≤ (generate_event ts sid st blip lat err traf msgIdx md).latency_ms
       ∧ (generate_event ts sid st blip lat err traf msgIdx md).latency_ms ≤ 6000)
    ∧ (0 ≤ (generate_event ts sid st blip lat err traf msgIdx md).latency_ms
       ∧ (generate_event ts sid st blip lat err traf msgIdx md).latency_ms ≤ 10000)
    ∧ (1/100 ≤ (generate_event ts sid st blip lat err traf msgIdx md).error_rate
       ∧ (generate_event ts sid st blip lat err traf msgIdx md).error_rate ≤ 80/100)
    ∧ (0 ≤ (generate_event ts sid st blip lat err traf msgIdx md).error_rate
       ∧ (generate_event ts sid st blip lat err traf msgIdx md).error_rate ≤ 1)
    ∧ (5 ≤ (generate_event ts sid st blip lat err traf msgIdx md).traffic_volume
       ∧ (generate_event ts sid st blip lat err traf msgIdx md).traffic_volume ≤ 100)
    ∧ (0 ≤ (generate_event ts sid st blip lat err traf msgIdx md).traffic_volume
       ∧ (generate_event ts sid st blip lat err traf msgIdx md).traffic_volume ≤ 100) := by
  have hb := draws_bounds (effStatus st blip) lat err traf h
  refine ⟨?_, hb.1, hb.2.1, hb.2.2.1, hb.2.2.2.1, hb.2.2.2.2.1, hb.2.2.2.2.2⟩
  show effStatus st blip = SStatus.healthy ∨ effStatus st blip = SStatus.warning
    ∨ effStatus st blip = SStatus.critical
  cases hS : effStatus st blip
  · exact Or.inl rfl
  · exact Or.inr (Or.inl rfl)
  · exact Or.inr (Or.inr rfl)

/-- Concrete check of claim C10 on a healthy-status draw. -/
theorem claim_C10_witness :
    validDraws (effStatus SStatus.healthy false) 500 (2/100) 75
    ∧ (200 ≤ (generate_event "t" "gateway" SStatus.healthy false 500 (2/100) 75 0 []).latency_ms
       ∧ (generate_event "t" "gateway" SStatus.healthy false 500 (2/100) 75 0 []).latency_ms ≤ 6000)
    ∧ (1/100 ≤ (generate_event "t" "gateway" SStatus.healthy false 500 (2/100) 75 0 []).error_rate
       ∧ (generate_event "t" "gateway" SStatus.healthy false 500 (2/100) 75 0 []).error_rate ≤ 80/100) := by
  have hv : validDraws (effStatus SStatus.healthy false) 500 (2/100) 75 :=
    ⟨by norm_num [effStatus, LATENCY_RANGES], by norm_num [effStatus, LATENCY_RANGES],
     by norm_num [effStatus, ERROR_RATE_RANGES], by norm_num [effStatus, ERROR_RATE_RANGES],
     by norm_num [effStatus, TRAFFIC_VOLUME_RANGES],
     by norm_num [effStatus, TRAFFIC_VOLUME_RANGES]⟩
  exact ⟨hv,
    (claim_C10 "t" "gateway" SStatus.healthy false 500 (2/100) 75 0 [] hv).2.1,
    (claim_C10 "t" "gateway" SStatus.healthy false 500 (2/100) 75 0 [] hv).2.2.2.1⟩

end Nexus
